import Mathlib

/-!
Verification development for the EAA propulsion-test calculator
(cda_calculator.py, handlers/plot_ox_mdot_venturi.py).

The numeric core of the program is shallowly embedded here:
float arithmetic that only adds, subtracts, multiplies, divides and
compares is modelled over the rationals; formulas involving square
roots are modelled over the reals.  Missing / unparseable values
(NaN after a pandas coercion) are modelled as Option.none.
-/

namespace EAA

/-! ## Two-click time-range selector (CdAPlotWindow._on_plot_click) -/

/-- State of the time-range selector held by CdAPlotWindow:
start_time, end_time, click_count and the Confirm button state. -/
structure SelState where
  startTime : Option ℚ
  endTime : Option ℚ
  clickCount : Nat
  confirmEnabled : Bool
deriving DecidableEq

/-- Selector state right after the plot window opens (lines 610-612). -/
def initSelState : SelState :=
  { startTime := none, endTime := none, clickCount := 0, confirmEnabled := false }

/-- One click at x-coordinate x, lines 797-856 of cda_calculator.py.
First click of a pair stores the start, clears the end and disables
Confirm; the second click stores the end, swaps the two values if they
arrived out of order, enables Confirm and resets the counter.  The
inner none case is unreachable in the program (click_count = 1 always
has start_time set); it is modelled as leaving the times unchanged. -/
def onPlotClick (x : ℚ) (st : SelState) : SelState :=
  let c := st.clickCount + 1
  if c = 1 then
    { st with clickCount := c, startTime := some x, endTime := none,
              confirmEnabled := false }
  else if c = 2 then
    match st.startTime with
    | some s =>
        if x < s then
          { st with clickCount := 0, startTime := some x, endTime := some s,
                    confirmEnabled := true }
        else
          { st with clickCount := 0, startTime := some s, endTime := some x,
                    confirmEnabled := true }
    | none => { st with clickCount := 0 }
  else
    { st with clickCount := c }

/-! ## Column auto-detection (CdACalculatorWindow._autodetect_columns) -/

/-- Python str.lower applied to a column name. -/
def lowerName (s : List Char) : List Char := s.map Char.toLower

/-- Whether pat occurs at the start of s. -/
def startsWithSub : List Char → List Char → Bool
  | _, [] => true
  | [], _ :: _ => false
  | a :: s, b :: p => a == b && startsWithSub s p

/-- Whether pat occurs as a contiguous substring of s
(the Python `in` operator on strings). -/
def containsSub (pat : List Char) : List Char → Bool
  | [] => startsWithSub [] pat
  | a :: t => startsWithSub (a :: t) pat || containsSub pat t

/-- Line 311: the column name, lowercased, contains "time" or equals "t". -/
def timeMatch (col : List Char) : Bool :=
  containsSub (("time").data) (lowerName col) || lowerName col == (("t").data)

/-- Line 314: the lowercased name contains "pressure" or "press". -/
def pressMatch (col : List Char) : Bool :=
  containsSub (("pressure").data) (lowerName col) ||
    containsSub (("press").data) (lowerName col)

/-- Line 318: the lowercased name contains "weight" or "mass". -/
def weightMatch (col : List Char) : Bool :=
  containsSub (("weight").data) (lowerName col) ||
    containsSub (("mass").data) (lowerName col)

/-- The three combo-box assignments made by the auto-detector. -/
structure ColAssign where
  time : Option (List Char)
  pressure : Option (List Char)
  weight : Option (List Char)
deriving DecidableEq

/-- Assignment state before any column is examined. -/
def emptyAssign : ColAssign := { time := none, pressure := none, weight := none }

/-- One iteration of the loop of _autodetect_columns (lines 309-321):
an if/elif chain in which the time branch always overwrites, while the
pressure and weight branches only fill an empty assignment. -/
def autodetectStep (st : ColAssign) (col : List Char) : ColAssign :=
  if timeMatch col then { st with time := some col }
  else if pressMatch col then
    if st.pressure.isNone then { st with pressure := some col } else st
  else if weightMatch col then
    if st.weight.isNone then { st with weight := some col } else st
  else st

/-- _autodetect_columns run over the ordered list of CSV column names,
starting from empty combo boxes. -/
def autodetectColumns (cols : List (List Char)) : ColAssign :=
  cols.foldl autodetectStep emptyAssign

/-! ## Time-column parsing (CdACalculatorWindow._get_numeric_time_data,
CdAPlotWindow._prepare_plot_data) -/

/-- One raw entry of the time column, as seen through the two pandas
coercions the program applies to it: numParse is the value produced by
pd.to_numeric on the entry (none for NaN), dtParse the value produced
by pd.to_datetime, as seconds on an absolute axis (none for NaT). -/
structure TimeCell where
  numParse : Option ℚ
  dtParse : Option ℚ
deriving DecidableEq

/-- The minimum of the successfully parsed timestamps, i.e.
time_dt.min() which skips NaT entries; 0 on an all-NaT column (the
program never reaches that read). -/
def minimumDt (dts : List (Option ℚ)) : ℚ :=
  ((dts.filterMap id).min?).getD 0

/-- Lines 462-480 (and the identical strategy at lines 690-709):
try numeric coercion of the whole column first; only when every entry
comes back NaN attempt datetime parsing and convert to seconds elapsed
from the earliest timestamp; when that also fails on every entry,
surface a parse failure (modelled as none). -/
def getNumericTimeData (cells : List TimeCell) : Option (List (Option ℚ)) :=
  let nums := cells.map (·.numParse)
  if nums.all Option.isNone then
    let dts := cells.map (·.dtParse)
    if dts.all Option.isNone then none
    else some (dts.map (Option.map (fun d => d - minimumDt dts)))
  else some nums

/-! ## Derived-rate estimator (CdAPlotWindow._calculate_mdot) -/

/-- LBS_TO_KG constant of cda_calculator.py. -/
def lbsToKg : ℚ := 0.453592

/-- Line 901: the boolean time mask; a NaN time compares false against
both bounds in numpy, so it is excluded here as well. -/
def timeInWindow (s e : ℚ) : Option ℚ → Bool
  | some t => decide (s ≤ t) && decide (t ≤ e)
  | none => false

/-- Lines 901-907: the (time, weight) pairs surviving the time mask. -/
def maskedPairs (s e : ℚ) (ts ws : List (Option ℚ)) :
    List (Option ℚ × Option ℚ) :=
  (ts.zip ws).filter fun p => timeInWindow s e p.1

/-- Lines 909-912: the pairs additionally surviving NaN removal on
both coordinates. -/
def validPairs (s e : ℚ) (ts ws : List (Option ℚ)) : List (ℚ × ℚ) :=
  (maskedPairs s e ts ws).filterMap fun p =>
    match p with
    | (some t, some w) => some (t, w)
    | _ => none

/-- Sum of the times of the fitted points. -/
def sumT (pts : List (ℚ × ℚ)) : ℚ := (pts.map Prod.fst).sum

/-- Sum of the weights of the fitted points. -/
def sumW (pts : List (ℚ × ℚ)) : ℚ := (pts.map Prod.snd).sum

/-- Sum of squared times. -/
def sumTT (pts : List (ℚ × ℚ)) : ℚ := (pts.map fun p => p.1 * p.1).sum

/-- Sum of time-weight products. -/
def sumTW (pts : List (ℚ × ℚ)) : ℚ := (pts.map fun p => p.1 * p.2).sum

/-- Sum of squared weights. -/
def sumWW (pts : List (ℚ × ℚ)) : ℚ := (pts.map fun p => p.2 * p.2).sum

/-- Denominator of the closed-form degree-1 least-squares slope. -/
def fitDenom (pts : List (ℚ × ℚ)) : ℚ :=
  (pts.length : ℚ) * sumTT pts - sumT pts * sumT pts

/-- Model of np.polyfit(t_slice, w_slice, 1)[0]: the closed-form
least-squares slope.  A rank-deficient system (all times equal) is
modelled as none; the program emits an arbitrary pseudo-inverse
solution with a RankWarning there, a case outside every stated
property. -/
def lsqSlope (pts : List (ℚ × ℚ)) : Option ℚ :=
  if fitDenom pts = 0 then none
  else some (((pts.length : ℚ) * sumTW pts - sumT pts * sumW pts) / fitDenom pts)

/-- Lines 884-929: _calculate_mdot.  Requires a confirmed window and a
selected weight column, masks the full-resolution time data to the
window, removes NaN pairs, requires at least two samples at each stage,
fits the least-squares line and returns minus its slope converted from
lbs/s to kg/s.  The except-branch of the source (line 928) is the none
result of lsqSlope. -/
def calculate_mdot (startT endT : Option ℚ) (hasWeight : Bool)
    (ts ws : List (Option ℚ)) : Option ℚ :=
  match startT, endT, hasWeight with
  | some s, some e, true =>
    let masked := maskedPairs s e ts ws
    if masked.length < 2 then none
    else
      let valid := validPairs s e ts ws
      if valid.length < 2 then none
      else
        match lsqSlope valid with
        | some slope => some (-slope * lbsToKg)
        | none => none
  | _, _, _ => none

/-- Sum of squared residuals of an affine fit w ≈ a·t + b; the
functional that np.polyfit degree 1 minimizes. -/
def sse (pts : List (ℚ × ℚ)) (a b : ℚ) : ℚ :=
  (pts.map fun p => (p.2 - (a * p.1 + b)) ^ 2).sum

/-! ## Plot decimation (CdAPlotWindow._create_plot) -/

/-- MAX_PLOT_POINTS constant of CdAPlotWindow. -/
def MAX_PLOT_POINTS : ℕ := 2000

/-- np.arange(0, stop, step) for a positive integer step: the
multiples of step below stop, of which there are ceil(stop/step). -/
def arange (stop step : ℕ) : List ℕ :=
  (List.range ((stop + step - 1) / step)).map (· * step)

/-- Lines 739-742 with the point budget as a parameter: the indices
kept for rendering.  The program instantiates maxPts with
MAX_PLOT_POINTS = 2000 and computes step = max(1, n // maxPts). -/
def plotIndicesP (maxPts n : ℕ) : List ℕ :=
  if n ≤ maxPts then List.range n
  else arange n (max 1 (n / maxPts))

/-- The indices kept for rendering by the program itself. -/
def plotIndices (n : ℕ) : List ℕ := plotIndicesP MAX_PLOT_POINTS n

/-- Lines 718-720: the (time, pressure) pairs surviving valid_mask. -/
def validPlotPairs (ts ps : List (Option ℚ)) : List (ℚ × ℚ) :=
  (ts.zip ps).filterMap fun p =>
    match p with
    | (some t, some pr) => some (t, pr)
    | _ => none

/-- Lines 727-729: the weight entries surviving the same valid_mask
(weights themselves may still be NaN at this point). -/
def validWeights (ts ps ws : List (Option ℚ)) : List (Option ℚ) :=
  ((ts.zip ps).zip ws).filterMap fun p =>
    match p with
    | ((some _, some _), w) => some w
    | _ => none

/-- What _prepare_plot_data and _create_plot leave behind: the
full-resolution numeric time data stored in self.time_data_numeric
(line 715) and the decimated arrays handed to matplotlib.  The indices
produced by plotIndicesP are always in range, so the getD default is
never read. -/
structure PlotData where
  timeDataNumeric : List (Option ℚ)
  plotTime : List ℚ
  plotPressure : List ℚ
  plotWeight : List (Option ℚ)

/-- Lines 690-752: build the plot-window data with point budget
maxPts. -/
def buildPlotData (maxPts : ℕ) (ts ps ws : List (Option ℚ)) : PlotData :=
  let v := validPlotPairs ts ps
  let vw := validWeights ts ps ws
  let idx := plotIndicesP maxPts v.length
  { timeDataNumeric := ts
    plotTime := idx.map fun i => (v.map Prod.fst).getD i 0
    plotPressure := idx.map fun i => (v.map Prod.snd).getD i 0
    plotWeight := idx.map fun i => vw.getD i none }

/-- The rate the plot window reports on Confirm: _calculate_mdot reads
the stored full-resolution time data and re-coerces the full weight
column from the dataframe (lines 893-899). -/
def plotDataMdot (pd : PlotData) (wsFull : List (Option ℚ)) (hasW : Bool)
    (s e : ℚ) : Option ℚ :=
  calculate_mdot (some s) (some e) hasW pd.timeDataNumeric wsFull

/-! ## Formula evaluators (real-valued, they involve square roots) -/

/-- PSI_TO_PA constant shared by both calculators. -/
noncomputable def PSI_TO_PA : ℝ := 6894.76

/-- IN2_TO_M2 constant of VenturiMdotWindow. -/
noncomputable def IN2_TO_M2 : ℝ := 0.00064516

/-- Failure modes of _calculate_cda on numeric inputs. -/
inductive CdaError where
  | deltaPNonpos : CdaError
  | rhoNonpos : CdaError
deriving DecidableEq

/-- Lines 552-572 of _calculate_cda, after the float conversions have
succeeded and calculated_mdot is available: convert both pressures to
Pa, reject a non-positive pressure drop, reject a non-positive
density, otherwise CdA = mdot / sqrt(2 rho deltaP). -/
noncomputable def calculate_cda (pHighPsi pLowPsi rho mdot : ℝ) :
    Except CdaError ℝ :=
  let pHighPa := pHighPsi * PSI_TO_PA
  let pLowPa := pLowPsi * PSI_TO_PA
  let deltaP := pHighPa - pLowPa
  if deltaP ≤ 0 then .error .deltaPNonpos
  else if rho ≤ 0 then .error .rhoNonpos
  else .ok (mdot / Real.sqrt (2 * rho * deltaP))

/-- Failure modes of _calculate_setpoint on numeric inputs. -/
inductive SetpointError where
  | cdaNonpos : SetpointError
  | rhoNonpos : SetpointError
deriving DecidableEq

/-- Lines 401-420 of _calculate_setpoint, after the float conversions
have succeeded: reject a non-positive CdA or density, otherwise
P_set = (mdot/CdA)^2/(2 rho) + P_manifold, performed in Pa and
converted back to PSI. -/
noncomputable def calculate_setpoint (cda mdot rho manifoldPsi : ℝ) :
    Except SetpointError ℝ :=
  if cda ≤ 0 then .error .cdaNonpos
  else if rho ≤ 0 then .error .rhoNonpos
  else
    let manifoldPa := manifoldPsi * PSI_TO_PA
    let deltaPPa := (mdot / cda) ^ 2 / (2 * rho)
    let pSetPa := deltaPPa + manifoldPa
    .ok (pSetPa / PSI_TO_PA)

/-- Failure modes of the venturi input validation. -/
inductive VenturiError where
  | areaNonpos : VenturiError
  | throatNotSmaller : VenturiError
  | cdOutOfRange : VenturiError
deriving DecidableEq

/-- Lines 221-252 of plot_ox_mdot_venturi.py applied to one sample:
areas converted in² to m², pressures PSI to Pa, a negative pressure
difference clamped to 0 by np.maximum, then
mdot = Cd·Y·A2·sqrt(2·rho·deltaP/(1-beta²)). -/
noncomputable def venturiMdotSample (a1 a2 cd y rho p1 p2 : ℝ) : ℝ :=
  let a1m := a1 * IN2_TO_M2
  let a2m := a2 * IN2_TO_M2
  let deltaP := max (p1 * PSI_TO_PA - p2 * PSI_TO_PA) 0
  let betaSq := (a2m / a1m) ^ 2
  cd * y * a2m * Real.sqrt (2 * rho * deltaP / (1 - betaSq))

/-- Lines 209-252 of _calculate_and_plot on numeric inputs: validate
the areas and the discharge coefficient, then evaluate the venturi
formula on every (P1, P2) sample of the selected columns. -/
noncomputable def venturiCalculate (a1 a2 cd y rho : ℝ)
    (samples : List (ℝ × ℝ)) : Except VenturiError (List ℝ) :=
  if a1 ≤ 0 ∨ a2 ≤ 0 then .error .areaNonpos
  else if a1 ≤ a2 then .error .throatNotSmaller
  else if cd ≤ 0 ∨ 1 < cd then .error .cdOutOfRange
  else .ok (samples.map fun p => venturiMdotSample a1 a2 cd y rho p.1 p.2)

/-! ## Error atomicity of the calculate actions -/

/-- The blocking notifications the two calculate buttons can raise,
each naming the offending constraint. -/
inductive Notif where
  | nonNumericCda : Notif
  | selectTimeRangeFirst : Notif
  | pHighNotGreater : Notif
  | rhoNotPositive : Notif
  | nonNumericSetpoint : Notif
  | cdaNotPositive : Notif
  | setpointRhoNotPositive : Notif
deriving DecidableEq

/-- The mutable results of CdACalculatorWindow that the two calculate
actions can touch: the stored mdot from the time selection, the stored
CdA, the CdA result label and the set-pressure result labels. -/
structure AppState where
  calculatedMdot : Option ℝ
  calculatedCda : Option ℝ
  cdaDisplay : Option ℝ
  setpointDisplay : Option (ℝ × ℝ)

/-- Lines 538-584: the whole _calculate_cda action.  The Option inputs
are the float-conversion results of the three entry fields (none for
non-numeric text, whose ValueError the source catches).  Returns the
new state and the notification raised, if any; every failure path of
the source returns before any assignment. -/
noncomputable def calculateCdaAction (pHigh pLow rho : Option ℝ)
    (st : AppState) : AppState × Option Notif :=
  match pHigh, pLow, rho with
  | some ph, some pl, some r =>
    match st.calculatedMdot with
    | none => (st, some .selectTimeRangeFirst)
    | some m =>
      let deltaP := ph * PSI_TO_PA - pl * PSI_TO_PA
      if deltaP ≤ 0 then (st, some .pHighNotGreater)
      else if r ≤ 0 then (st, some .rhoNotPositive)
      else
        let cda := m / Real.sqrt (2 * r * deltaP)
        ({ st with calculatedCda := some cda, cdaDisplay := some cda }, none)
  | _, _, _ => (st, some .nonNumericCda)

/-- Lines 392-429: the whole _calculate_setpoint action, with the four
entry fields modelled by their float-conversion results. -/
noncomputable def calculateSetpointAction (cda mdot rho manifold : Option ℝ)
    (st : AppState) : AppState × Option Notif :=
  match cda, mdot, rho, manifold with
  | some c, some m, some r, some mp =>
    if c ≤ 0 then (st, some .cdaNotPositive)
    else if r ≤ 0 then (st, some .setpointRhoNotPositive)
    else
      let pSetPa := (m / c) ^ 2 / (2 * r) + mp * PSI_TO_PA
      ({ st with setpointDisplay := some (pSetPa / PSI_TO_PA, pSetPa) }, none)
  | _, _, _, _ => (st, some .nonNumericSetpoint)

/-- The blocking notifications the venturi calculate button can
raise. -/
inductive VenturiNotif where
  | missingColumns : VenturiNotif
  | nonNumericParams : VenturiNotif
  | areaNonpos : VenturiNotif
  | throatNotSmaller : VenturiNotif
  | cdOutOfRange : VenturiNotif
  | nonNumericData : VenturiNotif
deriving DecidableEq

/-- Lines 191-252 of plot_ox_mdot_venturi.py as an action on the
displayed result: column selection is checked first, then the five
scalar entries are float-converted, then the domain validations run,
then the selected pressure columns are coerced to float (astype, which
raises on non-numeric text, modelled by samples = none), and only then
is the result series computed and displayed; every failure path
returns before the display is touched. -/
noncomputable def venturiAction (p1Sel p2Sel : Bool)
    (a1 a2 cd y rho : Option ℝ) (samples : Option (List (ℝ × ℝ)))
    (st : Option (List ℝ)) : Option (List ℝ) × Option VenturiNotif :=
  match p1Sel, p2Sel with
  | true, true =>
    match a1, a2, cd, y, rho with
    | some a1v, some a2v, some cdv, some yv, some rhov =>
      if a1v ≤ 0 ∨ a2v ≤ 0 then (st, some .areaNonpos)
      else if a1v ≤ a2v then (st, some .throatNotSmaller)
      else if cdv ≤ 0 ∨ 1 < cdv then (st, some .cdOutOfRange)
      else
        match samples with
        | some ss =>
          (some (ss.map fun p => venturiMdotSample a1v a2v cdv yv rhov p.1 p.2),
            none)
        | none => (st, some .nonNumericData)
    | _, _, _, _, _ => (st, some .nonNumericParams)
  | _, _ => (st, some .missingColumns)

/-! ## Theorems -/

/-- C4: for every pair of click x-values x1 then x2 delivered to the
plot-window click handler (from any state whose click counter is 0,
i.e. freshly opened, reset, or just after a completed pair), the
resulting stored window satisfies start ≤ end; when the second click
is to the left of the first the two values are swapped, and the
selection is marked complete (Confirm enabled). -/
theorem time_range_swap_invariant (st : SelState) (h : st.clickCount = 0)
    (x1 x2 : ℚ) :
    ∃ s e, (onPlotClick x2 (onPlotClick x1 st)).startTime = some s ∧
      (onPlotClick x2 (onPlotClick x1 st)).endTime = some e ∧
      s ≤ e ∧ (x2 < x1 → s = x2 ∧ e = x1) ∧
      (onPlotClick x2 (onPlotClick x1 st)).confirmEnabled = true := by
  have h1 : onPlotClick x1 st =
      { st with clickCount := 1, startTime := some x1, endTime := none,
                confirmEnabled := false } := by
    simp [onPlotClick, h]
  rw [h1]
  by_cases hx : x2 < x1
  · refine ⟨x2, x1, ?_, ?_, le_of_lt hx, fun _ => ⟨rfl, rfl⟩, ?_⟩ <;>
      simp [onPlotClick, hx]
  · refine ⟨x1, x2, ?_, ?_, not_lt.mp hx, fun hc => absurd hc hx, ?_⟩ <;>
      simp [onPlotClick, hx]

/-- Witness for C4: clicks at 1 then 0 from the freshly opened
selector give the swapped window (0, 1). -/
theorem time_range_swap_invariant_witness :
    ∃ s e, (onPlotClick 0 (onPlotClick 1 initSelState)).startTime = some s ∧
      (onPlotClick 0 (onPlotClick 1 initSelState)).endTime = some e ∧
      s ≤ e ∧ ((0 : ℚ) < 1 → s = 0 ∧ e = 1) ∧
      (onPlotClick 0 (onPlotClick 1 initSelState)).confirmEnabled = true :=
  time_range_swap_invariant initSelState rfl 1 0

/-- C9: when any of the three calculate actions (CdA, set pressure,
venturi) raises a notification (non-numeric input, missing
prerequisite, or a violated validity constraint), it leaves the window
state exactly as it was: the stored CdA, the stored mdot and every
result display keep their pre-action values.  All three actions are
total Lean functions, so no failure is fatal. -/
theorem calculate_error_atomicity :
    (∀ ph pl rho st, ((calculateCdaAction ph pl rho st).2).isSome = true →
        (calculateCdaAction ph pl rho st).1 = st)
  ∧ (∀ c m r mp st,
        ((calculateSetpointAction c m r mp st).2).isSome = true →
        (calculateSetpointAction c m r mp st).1 = st)
  ∧ (∀ p1s p2s a1 a2 cd y rho samples st,
        ((venturiAction p1s p2s a1 a2 cd y rho samples st).2).isSome = true →
        (venturiAction p1s p2s a1 a2 cd y rho samples st).1 = st) := by
  refine ⟨?_, ?_, ?_⟩
  · intro ph pl rho st h
    rcases ph with _ | ph <;> rcases pl with _ | pl <;> rcases rho with _ | rho <;>
      try rfl
    rcases hm : st.calculatedMdot with _ | m
    · simp [calculateCdaAction, hm]
    · by_cases h1 : ph * PSI_TO_PA - pl * PSI_TO_PA ≤ 0
      · simp [calculateCdaAction, hm, h1]
      · by_cases h2 : rho ≤ 0
        · simp [calculateCdaAction, hm, h1, h2]
        · exfalso
          simp [calculateCdaAction, hm, h1, h2] at h
  · intro c m r mp st h
    rcases c with _ | c <;> rcases m with _ | m <;> rcases r with _ | r <;>
      rcases mp with _ | mp <;> try rfl
    by_cases h1 : c ≤ 0
    · simp [calculateSetpointAction, h1]
    · by_cases h2 : r ≤ 0
      · simp [calculateSetpointAction, h1, h2]
      · exfalso
        simp [calculateSetpointAction, h1, h2] at h
  · intro p1s p2s a1 a2 cd y rho samples st h
    rcases p1s with _ | _ <;> rcases p2s with _ | _ <;> try rfl
    rcases a1 with _ | a1 <;> rcases a2 with _ | a2 <;>
      rcases cd with _ | cd <;> rcases y with _ | y <;>
      rcases rho with _ | rho <;> try rfl
    by_cases h1 : a1 ≤ 0 ∨ a2 ≤ 0
    · simp [venturiAction, h1]
    · by_cases h2 : a1 ≤ a2
      · simp [venturiAction, h1, h2]
      · by_cases h3 : cd ≤ 0 ∨ 1 < cd
        · simp [venturiAction, h1, h2, h3]
        · rcases samples with _ | ss
          · simp [venturiAction, h1, h2, h3]
          · exfalso
            simp [venturiAction, h1, h2, h3] at h

/-- Witness for C9: a non-numeric entry in either panel leaves the
empty state untouched. -/
theorem calculate_error_atomicity_witness :
    (calculateCdaAction none none none
        { calculatedMdot := none, calculatedCda := none, cdaDisplay := none,
          setpointDisplay := none }).1 =
      { calculatedMdot := none, calculatedCda := none, cdaDisplay := none,
        setpointDisplay := none } ∧
    (calculateSetpointAction none none none none
        { calculatedMdot := none, calculatedCda := none, cdaDisplay := none,
          setpointDisplay := none }).1 =
      { calculatedMdot := none, calculatedCda := none, cdaDisplay := none,
        setpointDisplay := none } ∧
    (venturiAction false false none none none none none none none).1 = none :=
  ⟨calculate_error_atomicity.1 none none none _ rfl,
   calculate_error_atomicity.2.1 none none none none _ rfl,
   calculate_error_atomicity.2.2 false false none none none none none none
     none rfl⟩

/-- C8: time-column parsing tries numeric coercion first — whenever
any entry is numeric, the numeric coercion of the whole column is
returned and timestamps are never consulted; only when every entry is
non-numeric is timestamp parsing attempted, converting to seconds
elapsed from the earliest timestamp; when that too fails on every
entry a parse error is surfaced and no numeric data is returned. -/
theorem time_parsing_strategy (cells : List TimeCell) :
    ((∃ c ∈ cells, (c.numParse).isSome = true) →
        getNumericTimeData cells = some (cells.map (·.numParse)))
  ∧ ((∀ c ∈ cells, c.numParse = none) →
      (∃ c ∈ cells, (c.dtParse).isSome = true) →
        getNumericTimeData cells =
          some ((cells.map (·.dtParse)).map
            (Option.map (fun d => d - minimumDt (cells.map (·.dtParse))))))
  ∧ ((∀ c ∈ cells, c.numParse = none) → (∀ c ∈ cells, c.dtParse = none) →
        getNumericTimeData cells = none) := by
  have hnum : ((cells.map (·.numParse)).all Option.isNone = true) ↔
      ∀ c ∈ cells, c.numParse = none := by
    simp [List.all_eq_true, Option.isNone_iff_eq_none]
  have hdt : ((cells.map (·.dtParse)).all Option.isNone = true) ↔
      ∀ c ∈ cells, c.dtParse = none := by
    simp [List.all_eq_true, Option.isNone_iff_eq_none]
  refine ⟨?_, ?_, ?_⟩
  · rintro ⟨c, hc, hcs⟩
    have hneg : ¬ ((cells.map (·.numParse)).all Option.isNone = true) := by
      rw [hnum]; push_neg
      exact ⟨c, hc, fun he => by simp [he] at hcs⟩
    simp only [getNumericTimeData]
    rw [if_neg hneg]
  · intro hnone hex
    have h1 : (cells.map (·.numParse)).all Option.isNone = true := hnum.mpr hnone
    have h2 : ¬ ((cells.map (·.dtParse)).all Option.isNone = true) := by
      rw [hdt]; push_neg
      obtain ⟨c, hc, hcs⟩ := hex
      exact ⟨c, hc, fun he => by simp [he] at hcs⟩
    simp only [getNumericTimeData]
    rw [if_pos h1, if_neg h2]
  · intro hnone hdtnone
    have h1 : (cells.map (·.numParse)).all Option.isNone = true := hnum.mpr hnone
    have h2 : (cells.map (·.dtParse)).all Option.isNone = true := hdt.mpr hdtnone
    simp only [getNumericTimeData]
    rw [if_pos h1, if_pos h2]

/-- Witness for C8: a numeric column is used as-is even when a
timestamp parse would have succeeded; an all-timestamp column becomes
elapsed seconds from its earliest entry; a column that parses neither
way yields a parse failure. -/
theorem time_parsing_strategy_witness :
    getNumericTimeData [{ numParse := some 1, dtParse := some 99 }] =
      some [some 1] ∧
    getNumericTimeData [{ numParse := none, dtParse := some 10 },
        { numParse := none, dtParse := some 5 }] = some [some 5, some 0] ∧
    getNumericTimeData [{ numParse := none, dtParse := none }] = none := by
  refine ⟨?_, ?_, ?_⟩
  · have h := (time_parsing_strategy
        [{ numParse := some 1, dtParse := some 99 }]).1 (by decide)
    rw [h]; decide
  · have h := (time_parsing_strategy
        [{ numParse := none, dtParse := some 10 },
         { numParse := none, dtParse := some 5 }]).2.1 (by decide) (by decide)
    rw [h]
    norm_num [minimumDt, List.min?, List.filterMap, min_def]
  · exact (time_parsing_strategy
        [{ numParse := none, dtParse := none }]).2.2 (by decide) (by decide)

/-- Helper: the pressure assignment of the detector fold is the
already-set value, else the first column reaching the pressure branch
of the if/elif chain. -/
theorem autodetect_foldl_pressure (cols : List (List Char)) :
    ∀ st : ColAssign,
    (List.foldl autodetectStep st cols).pressure =
      (match st.pressure with
       | some v => some v
       | none => List.find? (fun c => !timeMatch c && pressMatch c) cols) := by
  induction cols with
  | nil => intro st; cases hsp : st.pressure <;> simp [hsp]
  | cons c cols ih =>
    intro st
    rw [List.foldl_cons, ih (autodetectStep st c)]
    by_cases ht : timeMatch c
    · cases hsp : st.pressure <;>
        simp [autodetectStep, List.find?_cons, ht, hsp]
    · by_cases hp : pressMatch c
      · cases hsp : st.pressure <;>
          simp [autodetectStep, List.find?_cons, ht, hp, hsp]
      · by_cases hw : weightMatch c
        · cases hsp : st.pressure <;> cases hsw : st.weight <;>
            simp [autodetectStep, List.find?_cons, ht, hp, hw, hsp, hsw]
        · cases hsp : st.pressure <;>
            simp [autodetectStep, List.find?_cons, ht, hp, hw, hsp]

/-- Helper: the weight assignment of the detector fold is the
already-set value, else the first column reaching the weight branch of
the if/elif chain. -/
theorem autodetect_foldl_weight (cols : List (List Char)) :
    ∀ st : ColAssign,
    (List.foldl autodetectStep st cols).weight =
      (match st.weight with
       | some v => some v
       | none =>
           List.find? (fun c => !timeMatch c && !pressMatch c && weightMatch c)
             cols) := by
  induction cols with
  | nil => intro st; cases hsw : st.weight <;> simp [hsw]
  | cons c cols ih =>
    intro st
    rw [List.foldl_cons, ih (autodetectStep st c)]
    by_cases ht : timeMatch c
    · cases hsw : st.weight <;>
        simp [autodetectStep, List.find?_cons, ht, hsw]
    · by_cases hp : pressMatch c
      · cases hsw : st.weight <;> cases hsp : st.pressure <;>
          simp [autodetectStep, List.find?_cons, ht, hp, hsw, hsp]
      · by_cases hw : weightMatch c
        · cases hsw : st.weight <;>
            simp [autodetectStep, List.find?_cons, ht, hp, hw, hsw]
        · cases hsw : st.weight <;>
            simp [autodetectStep, List.find?_cons, ht, hp, hw, hsw]

/-- Helper: the time assignment of the detector fold is the last
time-matching column, else the already-set value. -/
theorem autodetect_foldl_time (cols : List (List Char)) :
    ∀ st : ColAssign,
    (List.foldl autodetectStep st cols).time =
      (match (cols.filter timeMatch).getLast? with
       | some v => some v
       | none => st.time) := by
  induction cols with
  | nil => intro st; cases hst : st.time <;> simp [hst]
  | cons c cols ih =>
    intro st
    rw [List.foldl_cons, ih (autodetectStep st c)]
    by_cases ht : timeMatch c
    · have hf : (c :: cols).filter timeMatch = c :: cols.filter timeMatch :=
        List.filter_cons_of_pos ht
      rw [hf]
      cases hl : cols.filter timeMatch with
      | nil => simp [autodetectStep, ht]
      | cons d ds =>
        have hne : (d :: ds) ≠ ([] : List (List Char)) := by simp
        rw [List.getLast?_cons_cons,
          List.getLast?_eq_getLast_of_ne_nil hne]
    · have hf : (c :: cols).filter timeMatch = cols.filter timeMatch :=
        List.filter_cons_of_neg (by simpa using ht)
      rw [hf]
      have hstep : (autodetectStep st c).time = st.time := by
        simp [autodetectStep, ht, apply_ite ColAssign.time]
      rw [hstep]

/-- C6 counterexample: the single column name "press time" contains
"press", so by the claim the first pressure-matching column should be
assigned to the pressure category; the detector instead claims it for
the time category and assigns no pressure column at all. -/
theorem autodetect_first_press_counterexample :
    pressMatch (("press time").data) = true ∧
    List.find? (fun c => pressMatch c) [(("press time").data)] =
      some (("press time").data) ∧
    (autodetectColumns [(("press time").data)]).pressure = none := by
  decide

/-- C6 (amended): per category the first matching column that reaches
that branch of the if/elif chain wins — for pressure the first column
matching press but not time, for weight the first column matching
weight/mass but neither time nor press — and a non-empty
pressure/weight assignment is never overwritten, while the time
assignment is overwritten by every later time-matching column, so for
time the last match wins. -/
theorem autodetect_assignment_spec (cols : List (List Char)) :
    (autodetectColumns cols).pressure =
      List.find? (fun c => !timeMatch c && pressMatch c) cols
  ∧ (autodetectColumns cols).weight =
      List.find? (fun c => !timeMatch c && !pressMatch c && weightMatch c) cols
  ∧ (autodetectColumns cols).time = (cols.filter timeMatch).getLast? := by
  refine ⟨?_, ?_, ?_⟩
  · rw [autodetectColumns, autodetect_foldl_pressure cols emptyAssign]
    rfl
  · rw [autodetectColumns, autodetect_foldl_weight cols emptyAssign]
    rfl
  · rw [autodetectColumns, autodetect_foldl_time cols emptyAssign]
    cases (cols.filter timeMatch).getLast? <;> rfl

/-- C10: the if/elif chain is exclusive — a time-matching column is
claimed by the time category: it is never the assigned pressure or
weight column (even when its name also contains "press", "pressure",
"weight" or "mass"), and whenever such a column is present the time
assignment is set, to a time-matching column. -/
theorem autodetect_time_priority (cols : List (List Char)) :
    (∀ c, (autodetectColumns cols).pressure = some c → timeMatch c = false)
  ∧ (∀ c, (autodetectColumns cols).weight = some c →
        timeMatch c = false ∧ pressMatch c = false)
  ∧ (∀ c, c ∈ cols → timeMatch c = true →
        ∃ d, (autodetectColumns cols).time = some d ∧ timeMatch d = true) := by
  have hpress := autodetect_foldl_pressure cols emptyAssign
  have hweight := autodetect_foldl_weight cols emptyAssign
  have htime := autodetect_foldl_time cols emptyAssign
  refine ⟨?_, ?_, ?_⟩
  · intro c hc
    rw [autodetectColumns, hpress] at hc
    have hfind := List.find?_some hc
    simp only [Bool.and_eq_true, Bool.not_eq_true'] at hfind
    exact hfind.1
  · intro c hc
    rw [autodetectColumns, hweight] at hc
    have hfind := List.find?_some hc
    simp only [Bool.and_eq_true, Bool.not_eq_true'] at hfind
    exact ⟨hfind.1.1, hfind.1.2⟩
  · intro c hc ht
    have hmem : c ∈ cols.filter timeMatch := List.mem_filter.mpr ⟨hc, ht⟩
    have hne : cols.filter timeMatch ≠ [] := List.ne_nil_of_mem hmem
    have hd : (cols.filter timeMatch).getLast? =
        some ((cols.filter timeMatch).getLast hne) :=
      List.getLast?_eq_getLast_of_ne_nil hne
    have hdmem : (cols.filter timeMatch).getLast hne ∈ cols.filter timeMatch :=
      List.getLast_mem hne
    refine ⟨(cols.filter timeMatch).getLast hne, ?_,
      (List.mem_filter.mp hdmem).2⟩
    rw [autodetectColumns, htime, hd]

/-- Witness for C10: with columns "time" and "press", the assigned
pressure column "press" is not time-matching, and the time-matching
column "time" is claimed by the time assignment. -/
theorem autodetect_time_priority_witness :
    timeMatch (("press").data) = false ∧
    ∃ d, (autodetectColumns [(("time").data), (("press").data)]).time = some d ∧
      timeMatch d = true :=
  ⟨(autodetect_time_priority [(("time").data), (("press").data)]).1
      (("press").data) (by decide),
   (autodetect_time_priority [(("time").data), (("press").data)]).2.2
      (("time").data) (by decide) (by decide)⟩

/-- Helper: the number of indices kept for rendering is below twice
the point budget. -/
theorem plotIndicesP_length_le (m n : ℕ) (hm : 1 ≤ m) :
    (plotIndicesP m n).length ≤ 2 * m - 1 := by
  unfold plotIndicesP
  split_ifs with h
  · simp only [List.length_range]
    omega
  · push_neg at h
    have hs1 : 1 ≤ n / m := (Nat.one_le_div_iff (by omega)).mpr (le_of_lt h)
    rw [Nat.max_eq_right hs1]
    set s := n / m with hs
    have hlen : (arange n s).length = (n + s - 1) / s := by
      simp [arange]
    rw [hlen]
    have hdm : m * s + n % m = n := Nat.div_add_mod n m
    have hr : n % m < m := Nat.mod_lt n (by omega)
    by_contra hcon
    push_neg at hcon
    set q := (n + s - 1) / s with hq
    have hq2 : 2 * m ≤ q := by omega
    have hmul : 2 * m * s ≤ q * s := Nat.mul_le_mul_right s hq2
    have hqs : q * s ≤ n + s - 1 := Nat.div_mul_le_self _ _
    have hms : m - 1 ≤ (m - 1) * s := Nat.le_mul_of_pos_right _ (by omega)
    have hexp : (m - 1) * s + s = m * s := by
      have h1 : m - 1 + 1 = m := by omega
      calc (m - 1) * s + s = (m - 1 + 1) * s := by ring
        _ = m * s := by rw [h1]
    have hmul2 : 2 * (m * s) ≤ q * s := by
      calc 2 * (m * s) = 2 * m * s := by ring
        _ ≤ q * s := hmul
    generalize hX : m * s = X at hdm hexp hmul2
    generalize hY : (m - 1) * s = Y at hms hexp
    generalize hZ : q * s = Z at hmul2 hqs
    generalize hR : n % m = R at hdm hr
    omega

/-- Helper: on columns with no missing entries the valid mask of
_prepare_plot_data keeps every row. -/
theorem validPlotPairs_replicate (n : ℕ) :
    validPlotPairs (List.replicate n (some (0 : ℚ)))
        (List.replicate n (some (0 : ℚ))) =
      List.replicate n ((0 : ℚ), (0 : ℚ)) := by
  induction n with
  | zero => rfl
  | succ n ih =>
    simp only [validPlotPairs, List.replicate_succ, List.zip_cons_cons,
      List.filterMap_cons] at ih ⊢
    exact congrArg _ ih

/-- C7 counterexample: with 2001 valid samples the renderer keeps all
2001 points — step = max(1, 2001 // 2000) = 1 — so the plot is not
downsampled to at most MAX_PLOT_POINTS = 2000 points. -/
theorem plot_decimation_exceeds_max :
    (buildPlotData MAX_PLOT_POINTS
        (List.replicate 2001 (some (0 : ℚ)))
        (List.replicate 2001 (some (0 : ℚ)))
        []).plotTime.length = 2001 ∧
    MAX_PLOT_POINTS < 2001 := by
  constructor
  · have hv := validPlotPairs_replicate 2001
    have hpi : plotIndicesP MAX_PLOT_POINTS 2001 = arange 2001 1 := by
      rw [plotIndicesP, if_neg (by norm_num [MAX_PLOT_POINTS])]
      norm_num [MAX_PLOT_POINTS]
    simp only [buildPlotData, List.length_map]
    rw [hv, List.length_replicate, hpi]
    simp [arange]
  · norm_num [MAX_PLOT_POINTS]

/-- C7 (amended): visual decimation never affects calculated results —
the rate for a window is computed from the stored full-resolution data
and equals the rate with no downsampling at all, for every point
budget; the rendered arrays are bounded, not by the budget itself, but
by twice the budget minus one (3999 points for the programs budget of
2000; e.g. 2001 valid samples are all kept). -/
theorem decimation_soundness (maxPts : ℕ) (ts ps ws wsFull : List (Option ℚ))
    (hasW : Bool) (s e : ℚ) (hm : 1 ≤ maxPts) :
    plotDataMdot (buildPlotData maxPts ts ps ws) wsFull hasW s e =
      calculate_mdot (some s) (some e) hasW ts wsFull
  ∧ (buildPlotData maxPts ts ps ws).plotTime.length ≤ 2 * maxPts - 1 := by
  constructor
  · rfl
  · simp only [buildPlotData, List.length_map]
    exact plotIndicesP_length_le _ _ hm

/-- Witness for C7 (amended) at a two-sample table and a point budget
of 1. -/
theorem decimation_soundness_witness :
    plotDataMdot (buildPlotData 1 [some 0, some 1] [some 5, some 6]
        [none, none]) [some 2, some 1] true 0 1 =
      calculate_mdot (some 0) (some 1) true [some 0, some 1] [some 2, some 1]
  ∧ (buildPlotData 1 [some 0, some 1] [some 5, some 6]
        [none, none]).plotTime.length ≤ 2 * 1 - 1 :=
  decimation_soundness 1 [some 0, some 1] [some 5, some 6] [none, none]
    [some 2, some 1] true 0 1 (by decide)

/-- Helper: the two-stage selection of _calculate_mdot (time mask,
then NaN removal) equals a single pass keeping exactly the rows whose
time lies in the window and whose time and weight are both present. -/
theorem validPairs_eq_filterMap (s e : ℚ) (ts ws : List (Option ℚ)) :
    validPairs s e ts ws = (ts.zip ws).filterMap fun p =>
      match p with
      | (some t, some w) => if s ≤ t ∧ t ≤ e then some (t, w) else none
      | _ => none := by
  unfold validPairs maskedPairs
  rw [List.filterMap_filter]
  congr 1
  funext p
  rcases p with ⟨t, w⟩
  rcases t with _ | t
  · simp [timeInWindow]
  · rcases w with _ | w
    · simp [timeInWindow]
    · by_cases h : s ≤ t ∧ t ≤ e
      · simp [timeInWindow, h.1, h.2]
      · have hb : ¬ (decide (s ≤ t) && decide (t ≤ e)) = true := by
          simp only [Bool.and_eq_true, decide_eq_true_eq]
          exact h
        simp [timeInWindow, hb, h]

/-- Helper: expansion of the squared-residual sum into the five sums
of the regression. -/
theorem sse_expand (a b : ℚ) : ∀ pts : List (ℚ × ℚ),
    sse pts a b = sumWW pts + a ^ 2 * sumTT pts + (pts.length : ℚ) * b ^ 2
      - 2 * a * sumTW pts - 2 * b * sumW pts + 2 * a * b * sumT pts := by
  intro pts
  induction pts with
  | nil => simp [sse, sumWW, sumTT, sumTW, sumW, sumT]
  | cons p pts ih =>
    simp only [sse, sumWW, sumTT, sumTW, sumW, sumT, List.map_cons,
      List.sum_cons, List.length_cons, Nat.cast_add, Nat.cast_one] at ih ⊢
    linear_combination ih

/-- Helper: expansion of the centered square sum of the times. -/
theorem center_sq_expand (m : ℚ) : ∀ pts : List (ℚ × ℚ),
    (pts.map fun p => (p.1 - m) ^ 2).sum =
      sumTT pts - 2 * m * sumT pts + (pts.length : ℚ) * m ^ 2 := by
  intro pts
  induction pts with
  | nil => simp [sumTT, sumT]
  | cons p pts ih =>
    simp only [sumTT, sumT, List.map_cons, List.sum_cons, List.length_cons,
      Nat.cast_add, Nat.cast_one] at ih ⊢
    linear_combination ih

/-- Helper: a sum of squares is nonnegative. -/
theorem sq_sum_nonneg (l : List ℚ) : 0 ≤ (l.map fun x => x ^ 2).sum := by
  induction l with
  | nil => simp
  | cons a l ih =>
    simp only [List.map_cons, List.sum_cons]
    have := sq_nonneg a
    linarith

/-- Helper: a sum of squares with a nonzero member is positive. -/
theorem sq_sum_pos (l : List ℚ) (x : ℚ) (hx : x ∈ l) (hne : x ≠ 0) :
    0 < (l.map fun y => y ^ 2).sum := by
  induction l with
  | nil => cases hx
  | cons a l ih =>
    simp only [List.map_cons, List.sum_cons]
    rcases List.mem_cons.mp hx with rfl | hmem
    · have h1 : 0 < x ^ 2 := by positivity
      have h2 := sq_sum_nonneg l
      linarith
    · have h1 := ih hmem
      have h2 := sq_nonneg a
      linarith

/-- Helper: two fitted points with distinct times make the normal
equation denominator positive. -/
theorem fitDenom_pos (pts : List (ℚ × ℚ)) (p q : ℚ × ℚ) (hp : p ∈ pts)
    (hq : q ∈ pts) (hne : p.1 ≠ q.1) : 0 < fitDenom pts := by
  have hn : 0 < pts.length := List.length_pos.mpr (List.ne_nil_of_mem hp)
  have hnq : (0 : ℚ) < (pts.length : ℚ) := by exact_mod_cast hn
  set m := sumT pts / (pts.length : ℚ) with hm
  have hkey : fitDenom pts =
      (pts.length : ℚ) * (pts.map fun r => (r.1 - m) ^ 2).sum := by
    rw [center_sq_expand m pts]
    simp only [fitDenom]
    rw [hm]
    field_simp
    ring
  rw [hkey]
  apply mul_pos hnq
  have haux : ∀ r : ℚ × ℚ, r ∈ pts → r.1 ≠ m →
      0 < (pts.map fun r2 => (r2.1 - m) ^ 2).sum := by
    intro r hr hrne
    have hx : (r.1 - m) ∈ pts.map fun r2 => r2.1 - m :=
      List.mem_map_of_mem _ hr
    have := sq_sum_pos (pts.map fun r2 => r2.1 - m) (r.1 - m) hx
      (sub_ne_zero.mpr hrne)
    simpa [List.map_map, Function.comp] using this
  have hor : p.1 ≠ m ∨ q.1 ≠ m := by
    by_contra hcc
    push_neg at hcc
    exact hne (hcc.1.trans hcc.2.symm)
  rcases hor with h | h
  · exact haux p hp h
  · exact haux q hq h

/-- Helper: the closed-form slope and intercept jointly minimize the
squared-residual sum over all affine fits. -/
theorem lsq_optimal (pts : List (ℚ × ℚ)) (hn : 0 < pts.length)
    (hd : 0 < fitDenom pts) (a b : ℚ) :
    sse pts
        (((pts.length : ℚ) * sumTW pts - sumT pts * sumW pts) / fitDenom pts)
        ((sumW pts -
            (((pts.length : ℚ) * sumTW pts - sumT pts * sumW pts) /
              fitDenom pts) * sumT pts) / (pts.length : ℚ))
      ≤ sse pts a b := by
  have hnq : (0 : ℚ) < (pts.length : ℚ) := by exact_mod_cast hn
  have hnne : (pts.length : ℚ) ≠ 0 := hnq.ne'
  have hdne : fitDenom pts ≠ 0 := hd.ne'
  set n : ℚ := (pts.length : ℚ) with hni
  set St := sumT pts with hSt
  set Sw := sumW pts with hSw
  set Stt := sumTT pts with hStt
  set Stw := sumTW pts with hStw
  set Sww := sumWW pts with hSww
  set d := fitDenom pts with hdi
  set A := (n * Stw - St * Sw) / d with hA
  set B := (Sw - A * St) / n with hB
  rw [sse_expand A B pts, sse_expand a b pts, ← sub_nonneg]
  have hdd : d = n * Stt - St * St := by rw [hdi]; rfl
  have key : (Sww + a ^ 2 * Stt + n * b ^ 2 - 2 * a * Stw - 2 * b * Sw
        + 2 * a * b * St)
      - (Sww + A ^ 2 * Stt + n * B ^ 2 - 2 * A * Stw - 2 * B * Sw
        + 2 * A * B * St)
      = ((n * b + a * St - Sw) ^ 2 + d * (a - A) ^ 2) / n := by
    rw [hB, hA, hdd]
    have hdd2 : n * Stt - St * St ≠ 0 := by rw [← hdd]; exact hdne
    field_simp
    ring
  rw [key]
  have h1 : 0 ≤ (n * b + a * St - Sw) ^ 2 + d * (a - A) ^ 2 :=
    add_nonneg (sq_nonneg _) (mul_nonneg hd.le (sq_nonneg _))
  exact div_nonneg h1 hnq.le

/-- Helper: _calculate_mdot evaluated on a window with at least two
valid samples of non-constant time yields minus the closed-form
least-squares slope times the lbs-to-kg factor. -/
theorem calculate_mdot_eq (s e : ℚ) (ts ws : List (Option ℚ))
    (h2 : ¬ (validPairs s e ts ws).length < 2)
    (hd : fitDenom (validPairs s e ts ws) ≠ 0) :
    calculate_mdot (some s) (some e) true ts ws =
      some (-((((validPairs s e ts ws).length : ℚ) *
            sumTW (validPairs s e ts ws) -
            sumT (validPairs s e ts ws) * sumW (validPairs s e ts ws)) /
          fitDenom (validPairs s e ts ws)) * lbsToKg) := by
  have hle : (validPairs s e ts ws).length ≤ (maskedPairs s e ts ws).length :=
    List.length_filterMap_le _ _
  have h1 : ¬ ((maskedPairs s e ts ws).length < 2) := by omega
  show (if (maskedPairs s e ts ws).length < 2 then none
    else if (validPairs s e ts ws).length < 2 then none
    else
      match lsqSlope (validPairs s e ts ws) with
      | some slope => some (-slope * lbsToKg)
      | none => none) = _
  rw [if_neg h1, if_neg h2]
  unfold lsqSlope
  rw [if_neg hd]

/-- C1: for every window (start, end) and weight data, the derived-rate
estimator keeps exactly the samples whose time lies in the window
inclusively with both time and weight present, returns none when fewer
than 2 valid samples remain, and otherwise returns minus the
least-squares slope of weight versus time multiplied by 0.453592
(lbs to kg) whenever the valid samples have non-constant time — where
least-squares means the returned slope, with its intercept, minimizes
the sum of squared residuals over all lines.  (Over the rationals,
this value is always finite.) -/
theorem mdot_estimator_spec (s e : ℚ) (ts ws : List (Option ℚ)) :
    (validPairs s e ts ws = (ts.zip ws).filterMap fun p =>
        match p with
        | (some t, some w) => if s ≤ t ∧ t ≤ e then some (t, w) else none
        | _ => none)
  ∧ ((validPairs s e ts ws).length < 2 →
       calculate_mdot (some s) (some e) true ts ws = none)
  ∧ (∀ p ∈ validPairs s e ts ws, ∀ q ∈ validPairs s e ts ws, p.1 ≠ q.1 →
       2 ≤ (validPairs s e ts ws).length →
       ∃ a b, calculate_mdot (some s) (some e) true ts ws =
           some (-a * lbsToKg)
         ∧ ∀ a2 b2, sse (validPairs s e ts ws) a b ≤
             sse (validPairs s e ts ws) a2 b2) := by
  refine ⟨validPairs_eq_filterMap s e ts ws, ?_, ?_⟩
  · intro h
    have hle : (validPairs s e ts ws).length ≤ (maskedPairs s e ts ws).length :=
      List.length_filterMap_le _ _
    show (if (maskedPairs s e ts ws).length < 2 then none
      else if (validPairs s e ts ws).length < 2 then none
      else
        match lsqSlope (validPairs s e ts ws) with
        | some slope => some (-slope * lbsToKg)
        | none => none) = none
    by_cases h1 : (maskedPairs s e ts ws).length < 2
    · rw [if_pos h1]
    · rw [if_neg h1, if_pos h]
  · intro p hp q hq hne hlen
    have hd := fitDenom_pos (validPairs s e ts ws) p q hp hq hne
    have hn : 0 < (validPairs s e ts ws).length := by omega
    refine ⟨(((validPairs s e ts ws).length : ℚ) *
          sumTW (validPairs s e ts ws) -
          sumT (validPairs s e ts ws) * sumW (validPairs s e ts ws)) /
        fitDenom (validPairs s e ts ws),
      (sumW (validPairs s e ts ws) -
          ((((validPairs s e ts ws).length : ℚ) *
              sumTW (validPairs s e ts ws) -
              sumT (validPairs s e ts ws) * sumW (validPairs s e ts ws)) /
            fitDenom (validPairs s e ts ws)) * sumT (validPairs s e ts ws)) /
        ((validPairs s e ts ws).length : ℚ), ?_, ?_⟩
    · exact calculate_mdot_eq s e ts ws (by omega) hd.ne'
    · intro a2 b2
      exact lsq_optimal (validPairs s e ts ws) hn hd a2 b2

/-- Witness for C1: the window [0, 10] over times (0, 1) and weights
(2, 1) has two valid samples of distinct time, so the estimator
returns minus the fitted slope times 0.453592 and that slope is a
least-squares minimizer. -/
theorem mdot_estimator_spec_witness :
    ∃ a b : ℚ,
      calculate_mdot (some 0) (some 10) true [some 0, some 1]
          [some 2, some 1] = some (-a * lbsToKg)
      ∧ ∀ a2 b2, sse (validPairs 0 10 [some 0, some 1] [some 2, some 1]) a b ≤
          sse (validPairs 0 10 [some 0, some 1] [some 2, some 1]) a2 b2 :=
  (mdot_estimator_spec 0 10 [some 0, some 1] [some 2, some 1]).2.2
    (0, 2) (by decide) (1, 1) (by decide) (by decide) (by decide)

/-- Helper: the CdA the program computes on the worked example of the
specification, bracketed: it is about 6.112e-6 m². -/
theorem cda_example_bounds :
    ∃ r : ℝ, calculate_cda 500 14.7 1000 0.5 = Except.ok r ∧
      (0.0000061072 : ℝ) < r ∧ r < 0.0000061170 := by
  have hX : (2 : ℝ) * 1000 * ((500 : ℝ) * PSI_TO_PA - 14.7 * PSI_TO_PA) =
      6692054056 := by
    norm_num [PSI_TO_PA]
  have hcond : ¬ ((500 : ℝ) * PSI_TO_PA - 14.7 * PSI_TO_PA ≤ 0) := by
    norm_num [PSI_TO_PA]
  have hrho : ¬ ((1000 : ℝ) ≤ 0) := by norm_num
  have hsqrt_pos : 0 < Real.sqrt 6692054056 :=
    Real.sqrt_pos.mpr (by norm_num)
  refine ⟨0.5 / Real.sqrt 6692054056, ?_, ?_, ?_⟩
  · simp only [calculate_cda]
    rw [if_neg hcond, if_neg hrho, hX]
  · have hsqrt_ub : Real.sqrt 6692054056 < 81870 := by
      rw [Real.sqrt_lt' (by norm_num)]
      norm_num
    calc (0.0000061072 : ℝ) < 0.5 / 81870 := by norm_num
      _ < 0.5 / Real.sqrt 6692054056 :=
        div_lt_div_of_pos_left (by norm_num) hsqrt_pos hsqrt_ub
  · have hsqrt_lb : (81740 : ℝ) ≤ Real.sqrt 6692054056 := by
      rw [Real.le_sqrt' (by norm_num)]
      norm_num
    calc 0.5 / Real.sqrt 6692054056 ≤ 0.5 / 81740 :=
        div_le_div_of_nonneg_left (by norm_num) (by norm_num) hsqrt_lb
      _ < 0.0000061170 := by norm_num

/-- C2 counterexample: on the specifications worked example
(P_high = 500 PSI, P_low = 14.7 PSI, rho = 1000, mdot = 0.5) the
program returns about 6.112e-6 m², not about 1.934e-4 m²: the result
differs from the claimed value by more than 1e-4, a relative error
near 97 percent (the claimed value corresponds to converting PSI to
kPa instead of Pa). -/
theorem cda_example_value_refuted :
    ∃ r : ℝ, calculate_cda 500 14.7 1000 0.5 = Except.ok r ∧
      (0.0001 : ℝ) < |r - 0.0001934| := by
  obtain ⟨r, hok, hlo, hhi⟩ := cda_example_bounds
  refine ⟨r, hok, ?_⟩
  have habs : |r - 0.0001934| = 0.0001934 - r := by
    rw [abs_of_neg (by linarith)]
    ring
  rw [habs]
  linarith

/-- C2 (amended): for every numeric input with P_high > P_low and
rho > 0 the CdA calculation returns mdot / sqrt(2·rho·deltaP) with
deltaP = (P_high − P_low)·6894.76 Pa; on the worked example the result
is about 6.112e-6 m² (not 1.934e-4); when P_high ≤ P_low or rho ≤ 0 it
fails with a domain error instead of returning a value. -/
theorem cda_formula_spec :
    (∀ ph pl rho m : ℝ, pl < ph → 0 < rho →
        calculate_cda ph pl rho m =
          Except.ok (m / Real.sqrt (2 * rho *
            (ph * PSI_TO_PA - pl * PSI_TO_PA))))
  ∧ (∀ ph pl rho m : ℝ, ph ≤ pl ∨ rho ≤ 0 →
        ∃ err, calculate_cda ph pl rho m = Except.error err)
  ∧ (∃ r : ℝ, calculate_cda 500 14.7 1000 0.5 = Except.ok r ∧
        |r - 0.000006112| < 0.000000005) := by
  have hC : (0 : ℝ) < PSI_TO_PA := by norm_num [PSI_TO_PA]
  refine ⟨?_, ?_, ?_⟩
  · intro ph pl rho m hpl hrho
    have hcond : ¬ (ph * PSI_TO_PA - pl * PSI_TO_PA ≤ 0) := by
      push_neg
      have := mul_lt_mul_of_pos_right hpl hC
      linarith
    simp only [calculate_cda]
    rw [if_neg hcond, if_neg (not_le.mpr hrho)]
  · intro ph pl rho m h
    simp only [calculate_cda]
    by_cases h1 : ph * PSI_TO_PA - pl * PSI_TO_PA ≤ 0
    · exact ⟨CdaError.deltaPNonpos, by rw [if_pos h1]⟩
    · have hrho : rho ≤ 0 := by
        rcases h with h | h
        · exfalso
          apply h1
          have := mul_le_mul_of_nonneg_right h hC.le
          linarith
        · exact h
      exact ⟨CdaError.rhoNonpos, by rw [if_neg h1, if_pos hrho]⟩
  · obtain ⟨r, hok, hlo, hhi⟩ := cda_example_bounds
    refine ⟨r, hok, ?_⟩
    rw [abs_lt]
    constructor <;> linarith

/-- Witness for C2 (amended) at P_high = 2, P_low = 1, rho = 1,
mdot = 1. -/
theorem cda_formula_spec_witness :
    calculate_cda 2 1 1 1 =
      Except.ok (1 / Real.sqrt (2 * 1 *
        ((2 : ℝ) * PSI_TO_PA - 1 * PSI_TO_PA))) :=
  cda_formula_spec.1 2 1 1 1 (by norm_num) (by norm_num)

/-- C3: round-trip between the two panels.  For every P_high > P_low,
rho > 0 and target mdot > 0, the CdA computed by the left panel is
accepted by the set-pressure panel, the required set pressure it
produces re-derives the original pressure drop exactly
((P_set − P_manifold) in Pa equals the original deltaP in Pa), and
feeding P_set (against the manifold pressure) back through the CdA
formula reproduces the original CdA exactly — so in particular within
floating-point tolerance. -/
theorem setpoint_roundtrip (ph pl rho m manifold : ℝ) (h1 : pl < ph)
    (h2 : 0 < rho) (h3 : 0 < m) :
    ∃ cda pset : ℝ,
      calculate_cda ph pl rho m = Except.ok cda ∧
      calculate_setpoint cda m rho manifold = Except.ok pset ∧
      (pset - manifold) * PSI_TO_PA = (ph - pl) * PSI_TO_PA ∧
      calculate_cda pset manifold rho m = Except.ok cda := by
  have hC : (0 : ℝ) < PSI_TO_PA := by norm_num [PSI_TO_PA]
  set dP := ph * PSI_TO_PA - pl * PSI_TO_PA with hdP
  have hdPpos : 0 < dP := by
    rw [hdP]
    have := mul_lt_mul_of_pos_right h1 hC
    linarith
  have hXpos : 0 < 2 * rho * dP := by positivity
  have hsq : 0 < Real.sqrt (2 * rho * dP) := Real.sqrt_pos.mpr hXpos
  set cda := m / Real.sqrt (2 * rho * dP) with hcda
  have hcdapos : 0 < cda := div_pos h3 hsq
  have hstep1 : calculate_cda ph pl rho m = Except.ok cda := by
    simp only [calculate_cda]
    rw [if_neg (not_le.mpr hdPpos), if_neg (not_le.mpr h2)]
  have hkey : (m / cda) ^ 2 = 2 * rho * dP := by
    rw [hcda]
    have hmc : m / (m / Real.sqrt (2 * rho * dP)) =
        Real.sqrt (2 * rho * dP) := by
      field_simp
    rw [hmc, Real.sq_sqrt hXpos.le]
  set pset := ((m / cda) ^ 2 / (2 * rho) + manifold * PSI_TO_PA) / PSI_TO_PA
    with hpset
  have hstep2 : calculate_setpoint cda m rho manifold = Except.ok pset := by
    simp only [calculate_setpoint]
    rw [if_neg (not_le.mpr hcdapos), if_neg (not_le.mpr h2)]
  have hdp2 : (m / cda) ^ 2 / (2 * rho) = dP := by
    rw [hkey]
    field_simp
  have hps : (pset - manifold) * PSI_TO_PA = dP := by
    rw [hpset, hdp2]
    field_simp
    ring
  refine ⟨cda, pset, hstep1, hstep2, ?_, ?_⟩
  · rw [hps, hdP]
    ring
  · have hd3 : pset * PSI_TO_PA - manifold * PSI_TO_PA = dP := by
      calc pset * PSI_TO_PA - manifold * PSI_TO_PA
          = (pset - manifold) * PSI_TO_PA := by ring
        _ = dP := hps
    simp only [calculate_cda]
    rw [if_neg (by rw [hd3]; exact not_le.mpr hdPpos),
      if_neg (not_le.mpr h2), hd3]

/-- Witness for C3 at P_high = 2, P_low = 1, rho = 1, mdot = 1,
manifold = 0. -/
theorem setpoint_roundtrip_witness :
    ∃ cda pset : ℝ,
      calculate_cda 2 1 1 1 = Except.ok cda ∧
      calculate_setpoint cda 1 1 0 = Except.ok pset ∧
      (pset - 0) * PSI_TO_PA = ((2 : ℝ) - 1) * PSI_TO_PA ∧
      calculate_cda pset 0 1 1 = Except.ok cda :=
  setpoint_roundtrip 2 1 1 1 0 (by norm_num) (by norm_num) (by norm_num)

/-- C5: for every venturi input with 0 < A2 < A1 and 0 < Cd ≤ 1 the
calculation succeeds and computes, for every sample,
mdot = Cd·Y·A2·sqrt(2·rho·deltaP/(1 − (A2/A1)²)) with areas converted
by 0.00064516 and pressures by 6894.76; a sample with negative
pressure difference is clamped to deltaP = 0 and yields mdot = 0; an
input violating 0 < A2 < A1 or 0 < Cd ≤ 1 fails with a domain
error. -/
theorem venturi_spec :
    (∀ a1 a2 cd y rho : ℝ, ∀ samples : List (ℝ × ℝ),
        0 < a2 → a2 < a1 → 0 < cd → cd ≤ 1 →
        venturiCalculate a1 a2 cd y rho samples =
          Except.ok (samples.map fun p =>
            venturiMdotSample a1 a2 cd y rho p.1 p.2))
  ∧ (∀ a1 a2 cd y rho p1 p2 : ℝ, p1 ≤ p2 →
        venturiMdotSample a1 a2 cd y rho p1 p2 = 0)
  ∧ (∀ a1 a2 cd y rho : ℝ, ∀ samples : List (ℝ × ℝ),
        ¬ (0 < a2 ∧ a2 < a1) ∨ ¬ (0 < cd ∧ cd ≤ 1) →
        ∃ err, venturiCalculate a1 a2 cd y rho samples =
          Except.error err) := by
  refine ⟨?_, ?_, ?_⟩
  · intro a1 a2 cd y rho samples h1 h2 h3 h4
    simp only [venturiCalculate]
    rw [if_neg (by push_neg; constructor <;> linarith),
      if_neg (not_le.mpr h2),
      if_neg (by push_neg; exact ⟨h3, h4⟩)]
  · intro a1 a2 cd y rho p1 p2 h
    simp only [venturiMdotSample]
    have hC : (0 : ℝ) < PSI_TO_PA := by norm_num [PSI_TO_PA]
    have hdp : max (p1 * PSI_TO_PA - p2 * PSI_TO_PA) 0 = 0 := by
      apply max_eq_right
      have := mul_le_mul_of_nonneg_right h hC.le
      linarith
    rw [hdp]
    simp
  · intro a1 a2 cd y rho samples h
    simp only [venturiCalculate]
    by_cases hA : a1 ≤ 0 ∨ a2 ≤ 0
    · exact ⟨VenturiError.areaNonpos, by rw [if_pos hA]⟩
    · by_cases hB : a1 ≤ a2
      · exact ⟨VenturiError.throatNotSmaller, by rw [if_neg hA, if_pos hB]⟩
      · have hcd : cd ≤ 0 ∨ 1 < cd := by
          push_neg at hA hB
          rcases h with h | h
          · exact absurd ⟨hA.2, hB⟩ h
          · by_contra hc
            push_neg at hc
            exact h ⟨hc.1, hc.2⟩
        exact ⟨VenturiError.cdOutOfRange,
          by rw [if_neg hA, if_neg hB, if_pos hcd]⟩

/-- Witness for C5: a valid venturi configuration evaluates the
formula on its sample, and a reversed pressure pair yields zero
flow. -/
theorem venturi_spec_witness :
    venturiCalculate 2 1 1 1 1 [((2 : ℝ), 1)] =
      Except.ok ([((2 : ℝ), 1)].map fun p =>
        venturiMdotSample 2 1 1 1 1 p.1 p.2) ∧
    venturiMdotSample 2 1 1 1 1 1 2 = 0 :=
  ⟨venturi_spec.1 2 1 1 1 1 [(2, 1)] (by norm_num) (by norm_num)
      (by norm_num) (by norm_num),
   venturi_spec.2.1 2 1 1 1 1 1 2 (by norm_num)⟩

end EAA
